import Mathlib

/-!
Verification of the Comet Slider transition engine (src/src/comet-slider.js).

The slider keeps a list of slide containers, a current index, an animating
flag and a loop option.  `show(toIndex)` guards re-entrancy, resolves the
direct child image of the `from` and `to` slides, and either swaps the
index instantly (missing image), runs a CSS fade (`animation: 'none'`) or
delegates to a WebGL transition with a fade fallback on rejection.  All of
the state manipulations below are transcribed from the source; machine
times are modelled as rationals, DOM attributes as booleans.
-/

namespace CometSlider

/-- One slide container: its `data-active` attribute and whether it owns a
direct child `img` element (the "eligible image"). -/
structure Slide where
  active : Bool
  hasImg : Bool
  deriving DecidableEq, Repr

/-- The persistent state of a `CometSlider` instance: `this.slides`,
`this.index`, `this._isAnimating` and `this.options.loop`. -/
structure SliderState where
  slides : List Slide
  index : ℕ
  isAnimating : Bool
  loop : Bool
  deriving DecidableEq, Repr

/-- Write the `data-active` attribute of the slide at position `j`
(`slides[j].setAttribute('data-active', b)`); out-of-range writes touch
nothing. -/
def setActive : List Slide → ℕ → Bool → List Slide
  | [], _, _ => []
  | s :: rest, 0, b => { s with active := b } :: rest
  | s :: rest, j + 1, b => s :: setActive rest j b

/-- Read the `data-active` attribute of the slide at position `i`; a
missing slide reads as inactive. -/
def isActive : List Slide → ℕ → Bool
  | [], _ => false
  | s :: _, 0 => s.active
  | _ :: rest, i + 1 => isActive rest i

/-- Mutation pair used by `_fadeImages` (lines 227-228) and by the WebGL
path once textures are ready (lines 382-383): first
`toSlide.setAttribute('data-active','true')`, then the same for
`fromSlide`. -/
def markBothActive (sl : List Slide) (fromIdx toIdx : ℕ) : List Slide :=
  setActive (setActive sl toIdx true) fromIdx true

/-- Mutation pair shared by the fade teardown (lines 242-243), the last
WebGL frame (lines 416-417) and `_activateIndex` (lines 202-203): set
`from` inactive, then `to` active. -/
def deactivateActivate (sl : List Slide) (fromIdx toIdx : ℕ) : List Slide :=
  setActive (setActive sl fromIdx false) toIdx true

/-- CometSlider._activateIndex: flips the attribute of the slide at
`this.index` to false, the one at `idx` to true, and stores `idx` as the
new index. -/
def activateIndex (st : SliderState) (idx : ℕ) : SliderState :=
  { st with slides := deactivateActivate st.slides st.index idx, index := idx }

/-- CometSlider._emitChange: the pair of arguments handed to the
user-supplied callback.  The source invokes
`this.options.onChange(toIndex, fromIndex)` — destination first. -/
def emitChange (fromIndex toIndex : ℕ) : ℕ × ℕ := (toIndex, fromIndex)

/-- Array subscript as in JS: `this.slides[i]` is `undefined` when `i` is
negative or not below the length. -/
def getSlide (sl : List Slide) (i : ℤ) : Option Slide :=
  if 0 ≤ i then sl.get? i.toNat else none

/-- CometSlider._getDirectImg: on an existing slide it returns the direct
child `img` when present, else null; applied to an `undefined` slide it
throws (`slideEl.querySelector` on `undefined`). -/
def getDirectImg : Option Slide → Except Unit (Option Unit)
  | Option.none => Except.error ()
  | Option.some s => Except.ok (if s.hasImg then some () else none)

/-- Which of the four completion paths of `show` a run took. -/
inductive Path where
  | instantSwap
  | cssFade
  | webglSuccess
  | webglFallback
  deriving DecidableEq, Repr

/-- State updates of the completion sequence shared by the fade and WebGL
paths: both slides marked active at transition start, the finalize flip
(`from := false`, `to := true`), `_activateIndex(toIndex)`, and clearing
the animating flag. -/
def transitionRun (st1 : SliderState) (fromIndex tN : ℕ) : SliderState :=
  let st2 := { st1 with slides := markBothActive st1.slides fromIndex tN }
  let st3 := { st2 with slides := deactivateActivate st2.slides fromIndex tN }
  let st4 := activateIndex st3 tN
  { st4 with isAnimating := false }

/-- One fully completed run of `CometSlider.show(toIndex)`.  `webglFails`
says whether the WebGL session's promise rejects (Three.js missing,
texture decode failure, frame-loop error, ...); `failedAfterMarks` says
whether that failure happened after the session had already marked both
slides active (frame-loop paths) or before (setup paths).  The result
carries the final state, the list of argument pairs passed to the
`onChange` callback, and the completion path taken (`none` when the guard
dropped the request). -/
def show' (webglFails failedAfterMarks : Bool) (st : SliderState)
    (animation : String) (toIndex : ℤ) :
    Except Unit (SliderState × List (ℕ × ℕ) × Option Path) :=
  if st.isAnimating = true ∨ toIndex = (st.index : ℤ) then
    Except.ok (st, [], none)
  else
    match getDirectImg (getSlide st.slides (st.index : ℤ)) with
    | Except.error e => Except.error e
    | Except.ok fromImg =>
      match getDirectImg (getSlide st.slides toIndex) with
      | Except.error e => Except.error e
      | Except.ok toImg =>
        if fromImg = none ∨ toImg = none then
          Except.ok (activateIndex st toIndex.toNat, [], some Path.instantSwap)
        else if animation = "none" then
          Except.ok (transitionRun { st with isAnimating := true }
              st.index toIndex.toNat,
            [emitChange st.index toIndex.toNat], some Path.cssFade)
        else if webglFails = false then
          Except.ok (transitionRun { st with isAnimating := true }
              st.index toIndex.toNat,
            [emitChange st.index toIndex.toNat], some Path.webglSuccess)
        else
          Except.ok (transitionRun
              (if failedAfterMarks then
                { st with isAnimating := true,
                          slides := markBothActive st.slides st.index toIndex.toNat }
               else { st with isAnimating := true }) st.index toIndex.toNat,
            [emitChange st.index toIndex.toNat], some Path.webglFallback)

/-- Index computed by `next()`: `to = index + 1` then
`(to + slides.length) % slides.length` (JS `%` agrees with `Int.emod` on
the nonnegative dividends occurring here). -/
def nextTarget (n : ℕ) (i : ℤ) : ℤ := (i + 1 + (n : ℤ)) % (n : ℤ)

/-- Index computed by `prev()`: `to = index - 1` then
`(to + slides.length) % slides.length`. -/
def prevTarget (n : ℕ) (i : ℤ) : ℤ := (i - 1 + (n : ℤ)) % (n : ℤ)

/-- CometSlider.next: returns early when the incremented index runs past
the end and looping is disabled, otherwise shows the wrapped index. -/
def next' (webglFails failedAfterMarks : Bool) (st : SliderState)
    (animation : String) :
    Except Unit (SliderState × List (ℕ × ℕ) × Option Path) :=
  if (st.slides.length : ℤ) ≤ (st.index : ℤ) + 1 ∧ st.loop = false then
    Except.ok (st, [], none)
  else
    show' webglFails failedAfterMarks st animation
      (nextTarget st.slides.length (st.index : ℤ))

/-- CometSlider.prev: returns early when the decremented index falls below
zero and looping is disabled, otherwise shows the wrapped index. -/
def prev' (webglFails failedAfterMarks : Bool) (st : SliderState)
    (animation : String) :
    Except Unit (SliderState × List (ℕ × ℕ) × Option Path) :=
  if (st.index : ℤ) - 1 < 0 ∧ st.loop = false then
    Except.ok (st, [], none)
  else
    show' webglFails failedAfterMarks st animation
      (prevTarget st.slides.length (st.index : ℤ))

@[simp]
theorem activateIndex_index (st : SliderState) (idx : ℕ) :
    (activateIndex st idx).index = idx := rfl

@[simp]
theorem activateIndex_isAnimating (st : SliderState) (idx : ℕ) :
    (activateIndex st idx).isAnimating = st.isAnimating := rfl

@[simp]
theorem activateIndex_loop (st : SliderState) (idx : ℕ) :
    (activateIndex st idx).loop = st.loop := rfl

@[simp]
theorem transitionRun_index (st : SliderState) (f t : ℕ) :
    (transitionRun st f t).index = t := rfl

@[simp]
theorem transitionRun_isAnimating (st : SliderState) (f t : ℕ) :
    (transitionRun st f t).isAnimating = false := rfl

@[simp]
theorem transitionRun_loop (st : SliderState) (f t : ℕ) :
    (transitionRun st f t).loop = st.loop := rfl

/-- Helper: the re-entrancy guard of `show` (line 154) drops the request
and changes nothing. -/
theorem show'_guard (wf fam : Bool) (st : SliderState) (anim : String)
    (toIndex : ℤ) (h : st.isAnimating = true ∨ toIndex = (st.index : ℤ)) :
    show' wf fam st anim toIndex = Except.ok (st, [], none) := by
  unfold show'
  rw [if_pos h]

/-- Helper: anatomy of every run of `show` that took a completion path:
it ends un-animating with the target index installed, the instant swap
emits nothing, and every other path emits exactly one `(toIndex,
fromIndex)` callback invocation. -/
theorem show'_ok_some (wf fam : Bool) (st : SliderState) (anim : String)
    (toIndex : ℤ) {st' : SliderState} {ev : List (ℕ × ℕ)} {p : Path}
    (h : show' wf fam st anim toIndex = Except.ok (st', ev, some p)) :
    st'.isAnimating = false ∧ st'.index = toIndex.toNat ∧
    (p = Path.instantSwap → ev = []) ∧
    (p ≠ Path.instantSwap → ev = [(toIndex.toNat, st.index)]) := by
  unfold show' at h
  split at h
  · simp at h
  · next hg =>
    have ha : st.isAnimating = false := by
      rcases Bool.eq_false_or_eq_true st.isAnimating with hb | hb
      · exact absurd (Or.inl hb) hg
      · exact hb
    split at h
    · simp at h
    · split at h
      · simp at h
      · split at h
        · simp only [Except.ok.injEq, Prod.mk.injEq, Option.some.injEq] at h
          obtain ⟨h1, h2, h3⟩ := h
          subst h1; subst h2; subst h3
          simp [ha]
        · split at h
          · simp only [Except.ok.injEq, Prod.mk.injEq, Option.some.injEq] at h
            obtain ⟨h1, h2, h3⟩ := h
            subst h1; subst h2; subst h3
            simp [emitChange]
          · split at h
            · simp only [Except.ok.injEq, Prod.mk.injEq, Option.some.injEq] at h
              obtain ⟨h1, h2, h3⟩ := h
              subst h1; subst h2; subst h3
              simp [emitChange]
            · simp only [Except.ok.injEq, Prod.mk.injEq, Option.some.injEq] at h
              obtain ⟨h1, h2, h3⟩ := h
              subst h1; subst h2; subst h3
              simp [emitChange]

/-- Helper: a `show` call from an idle state at an in-range target index
distinct from the current one always returns through some completion
path, with the target installed as the new index. -/
theorem show'_completes (wf fam : Bool) (st : SliderState) (anim : String)
    (t : ℤ) (hanim : st.isAnimating = false)
    (hidx : st.index < st.slides.length)
    (h0 : 0 ≤ t) (hlt : t < (st.slides.length : ℤ))
    (hne : t ≠ (st.index : ℤ)) :
    ∃ st' ev p, show' wf fam st anim t = Except.ok (st', ev, some p) ∧
      st'.index = t.toNat := by
  obtain ⟨s0, hs0⟩ : ∃ s, st.slides.get? st.index = some s :=
    List.get?_eq_get hidx ▸ ⟨_, rfl⟩
  have hlt' : t.toNat < st.slides.length := by omega
  obtain ⟨s1, hs1⟩ : ∃ s, st.slides.get? t.toNat = some s :=
    List.get?_eq_get hlt' ▸ ⟨_, rfl⟩
  have hg0 : getSlide st.slides (st.index : ℤ) = some s0 := by
    unfold getSlide
    rw [if_pos (by omega)]
    simpa using hs0
  have hg1 : getSlide st.slides t = some s1 := by
    unfold getSlide
    rw [if_pos h0]
    exact hs1
  unfold show'
  rw [if_neg (by simp [hanim, hne])]
  rw [hg0, hg1]
  simp only [getDirectImg]
  cases hb0 : s0.hasImg <;> cases hb1 : s1.hasImg <;>
    by_cases hA : anim = "none" <;> cases wf <;> cases fam <;>
      simp [hb0, hb1, hA]

/-- C1: the claim states the change callback is invoked as
`onChange(fromIndex, toIndex)` — and the repository's README documents
exactly that signature — but `_emitChange` (line 469) invokes
`this.options.onChange(toIndex, fromIndex)`.  Evaluating a completed
fade transition from index 0 to index 1: the callback receives `(1, 0)`,
destination first. -/
theorem C1_onChange_swapped_eval :
    show' false false
        { slides := [{ active := true, hasImg := true },
                     { active := false, hasImg := true }],
          index := 0, isAnimating := false, loop := true } "none" 1 =
      Except.ok
        ({ slides := [{ active := false, hasImg := true },
                      { active := true, hasImg := true }],
           index := 1, isAnimating := false, loop := true },
         [(1, 0)], some Path.cssFade) := by
  rfl

/-- C3 counterexample: `show(1)` on a slider whose target slide lacks an
eligible image takes the instantaneous-swap path: the active index
changes from 0 to 1 but the emitted-callback list is empty, so this
index-changing path fires the change notification zero times, not
exactly once. -/
theorem C3_instantSwap_no_notification :
    show' false false
        { slides := [{ active := true, hasImg := true },
                     { active := false, hasImg := false }],
          index := 0, isAnimating := false, loop := true } "wave" 1 =
      Except.ok
        ({ slides := [{ active := false, hasImg := true },
                      { active := true, hasImg := false }],
           index := 1, isAnimating := false, loop := true },
         [], some Path.instantSwap) := by
  rfl

/-- C3 (amended): every completion path of `show` ends back in the idle
state (animating flag clear) with the target installed as the active
index; the GPU-success, CSS-fade and GPU-failure-fallback paths fire the
change notification exactly once, while the instantaneous swap taken
when a slide lacks an eligible image fires it zero times. -/
theorem C3_paths_idle_and_notify (wf fam : Bool) (st : SliderState)
    (anim : String) (toIndex : ℤ) {st' : SliderState}
    {ev : List (ℕ × ℕ)} {p : Path}
    (h : show' wf fam st anim toIndex = Except.ok (st', ev, some p)) :
    st'.isAnimating = false ∧ st'.index = toIndex.toNat ∧
    (p = Path.instantSwap → ev = []) ∧
    (p ≠ Path.instantSwap → ev.length = 1) := by
  obtain ⟨h1, h2, h3, h4⟩ := show'_ok_some wf fam st anim toIndex h
  exact ⟨h1, h2, h3, fun hp => by rw [h4 hp]; rfl⟩

/-- Witness for C3 (amended) at a concrete completed fade run. -/
theorem C3_paths_idle_and_notify_witness :
    (({ slides := [{ active := false, hasImg := true },
                   { active := true, hasImg := true }],
        index := 1, isAnimating := false, loop := true } : SliderState).isAnimating
        = false) ∧
    (({ slides := [{ active := false, hasImg := true },
                   { active := true, hasImg := true }],
        index := 1, isAnimating := false, loop := true } : SliderState).index
        = (1 : ℤ).toNat) ∧
    (Path.cssFade = Path.instantSwap → ([((1 : ℕ), (0 : ℕ))] : List (ℕ × ℕ)) = []) ∧
    (Path.cssFade ≠ Path.instantSwap → ([((1 : ℕ), (0 : ℕ))] : List (ℕ × ℕ)).length = 1) :=
  C3_paths_idle_and_notify false false
    { slides := [{ active := true, hasImg := true },
                 { active := false, hasImg := true }],
      index := 0, isAnimating := false, loop := true } "none" 1 (by rfl)

/-- C6: a `show(i)` issued while the animating flag is set, or with `i`
equal to the current index, is dropped by the guard on line 154: the
state (index, animating flag, every active marker) is returned untouched,
no completion path runs and nothing is emitted. -/
theorem C6_guard_noop (wf fam : Bool) (st : SliderState) (anim : String)
    (toIndex : ℤ)
    (h : st.isAnimating = true ∨ toIndex = (st.index : ℤ)) :
    show' wf fam st anim toIndex = Except.ok (st, [], none) :=
  show'_guard wf fam st anim toIndex h

/-- Witness for C6 at a concrete animating state. -/
theorem C6_guard_noop_witness :
    show' false false
        { slides := [{ active := true, hasImg := true },
                     { active := false, hasImg := true }],
          index := 0, isAnimating := true, loop := true } "wave" 1 =
      Except.ok
        ({ slides := [{ active := true, hasImg := true },
                      { active := false, hasImg := true }],
           index := 0, isAnimating := true, loop := true }, [], none) :=
  C6_guard_noop false false _ "wave" 1 (Or.inl rfl)

/-- C10: `show(i)` for an index outside `[0, slideCount)` distinct from
the current index reaches `_getDirectImg(undefined)`, whose
`slideEl.querySelector` call throws.  The throw happens before
`_isAnimating = true` (line 167) and before any attribute or index
mutation, so the whole state is left exactly as it was. -/
theorem C10_out_of_range_throws (wf fam : Bool) (st : SliderState)
    (anim : String) (toIndex : ℤ)
    (hanim : st.isAnimating = false)
    (hne : toIndex ≠ (st.index : ℤ))
    (hout : toIndex < 0 ∨ (st.slides.length : ℤ) ≤ toIndex) :
    show' wf fam st anim toIndex = Except.error () := by
  have hTo : getSlide st.slides toIndex = none := by
    unfold getSlide
    rcases hout with h | h
    · rw [if_neg (by omega)]
    · rw [if_pos (by omega)]
      exact List.get?_eq_none.mpr (by omega)
  unfold show'
  rw [if_neg (by simp [hanim, hne])]
  rw [hTo]
  cases hF : getDirectImg (getSlide st.slides (st.index : ℤ)) with
  | error e => rfl
  | ok fromImg => rfl

/-- Witness for C10: `show(5)` on a two-slide idle slider throws. -/
theorem C10_out_of_range_throws_witness :
    show' false false
        { slides := [{ active := true, hasImg := true },
                     { active := false, hasImg := true }],
          index := 0, isAnimating := false, loop := true } "wave" 5 =
      Except.error () :=
  C10_out_of_range_throws false false _ "wave" 5 rfl (by decide)
    (Or.inr (by decide))

/-- C9: with exactly one slide the wrapped target of both `next()` and
`prev()` is the current index 0, so the request is dropped by the
`toIndex === this.index` guard (or, with looping disabled, by the
wraparound guard): the index stays 0, no transition path runs, no
notification fires — for either value of the loop option. -/
theorem C9_single_slide_noop (wf fam : Bool) (st : SliderState)
    (anim : String) (hlen : st.slides.length = 1) (hidx : st.index = 0) :
    next' wf fam st anim = Except.ok (st, [], none) ∧
    prev' wf fam st anim = Except.ok (st, [], none) := by
  have hNext : nextTarget st.slides.length (st.index : ℤ) = (st.index : ℤ) := by
    rw [hlen, hidx]
    decide
  have hPrev : prevTarget st.slides.length (st.index : ℤ) = (st.index : ℤ) := by
    rw [hlen, hidx]
    decide
  constructor
  · unfold next'
    split
    · rfl
    · rw [hNext]
      exact show'_guard _ _ _ _ _ (Or.inr rfl)
  · unfold prev'
    split
    · rfl
    · rw [hPrev]
      exact show'_guard _ _ _ _ _ (Or.inr rfl)

/-- Witness for C9 on a concrete one-slide slider with looping enabled. -/
theorem C9_single_slide_noop_witness :
    next' false false
        { slides := [{ active := true, hasImg := true }],
          index := 0, isAnimating := false, loop := true } "wave" =
      Except.ok
        ({ slides := [{ active := true, hasImg := true }],
           index := 0, isAnimating := false, loop := true }, [], none) ∧
    prev' false false
        { slides := [{ active := true, hasImg := true }],
          index := 0, isAnimating := false, loop := true } "wave" =
      Except.ok
        ({ slides := [{ active := true, hasImg := true }],
           index := 0, isAnimating := false, loop := true }, [], none) :=
  C9_single_slide_noop false false _ "wave" rfl rfl

/-- Helper: the `+ slides.length` in `next()` cancels under the modulo. -/
theorem nextTarget_eq_mod (n : ℕ) (i : ℤ) :
    nextTarget n i = (i + 1) % (n : ℤ) := by
  unfold nextTarget
  rw [Int.add_emod_self]

/-- Helper: the `+ slides.length` in `prev()` cancels under the modulo. -/
theorem prevTarget_eq_mod (n : ℕ) (i : ℤ) :
    prevTarget n i = (i - 1) % (n : ℤ) := by
  unfold prevTarget
  rw [Int.add_emod_self]

/-- Helper: `k` applications of the `next()` index update rotate the
index by `k` modulo the slide count. -/
theorem nextTarget_iterate (n : ℕ) (i : ℤ) (h0 : 0 ≤ i) (hi : i < (n : ℤ)) :
    ∀ k : ℕ, (nextTarget n)^[k] i = (i + k) % (n : ℤ) := by
  intro k
  induction k with
  | zero => simpa using (Int.emod_eq_of_lt h0 hi).symm
  | succ k ih =>
    rw [Function.iterate_succ_apply', ih, nextTarget_eq_mod]
    have h1 : (i + (k + 1 : ℕ) : ℤ) = i + k + 1 := by push_cast; ring
    rw [h1, Int.emod_add_emod]

/-- C7: with looping enabled, the index update of `next()`
(`(index + 1 + N) % N`) applied `N` times returns any valid starting
index to itself, and the updates of `next()` and `prev()` are mutually
inverse on valid indices. -/
theorem C7_loop_round_trips (n : ℕ) (i : ℤ) (hn : 1 ≤ n) (h0 : 0 ≤ i)
    (hi : i < (n : ℤ)) :
    (nextTarget n)^[n] i = i ∧
    prevTarget n (nextTarget n i) = i ∧
    nextTarget n (prevTarget n i) = i := by
  refine ⟨?_, ?_, ?_⟩
  · rw [nextTarget_iterate n i h0 hi n, Int.add_emod_self,
      Int.emod_eq_of_lt h0 hi]
  · rw [nextTarget_eq_mod]
    by_cases hcase : i + 1 < (n : ℤ)
    · rw [Int.emod_eq_of_lt (by omega) hcase, prevTarget_eq_mod]
      have h1 : i + 1 - 1 = i := by ring
      rw [h1, Int.emod_eq_of_lt h0 hi]
    · have hEq : i + 1 = (n : ℤ) := by omega
      rw [hEq, Int.emod_self]
      unfold prevTarget
      have h1 : (0 : ℤ) - 1 + (n : ℤ) = (n : ℤ) - 1 := by ring
      rw [h1, Int.emod_eq_of_lt (by omega) (by omega)]
      omega
  · by_cases hcase : 1 ≤ i
    · rw [prevTarget_eq_mod, Int.emod_eq_of_lt (by omega) (by omega),
        nextTarget_eq_mod]
      have h1 : i - 1 + 1 = i := by ring
      rw [h1, Int.emod_eq_of_lt h0 hi]
    · have hEq : i = 0 := by omega
      subst hEq
      unfold prevTarget
      have h1 : (0 : ℤ) - 1 + (n : ℤ) = (n : ℤ) - 1 := by ring
      rw [h1, Int.emod_eq_of_lt (by omega) (by omega)]
      unfold nextTarget
      have h2 : (n : ℤ) - 1 + 1 + (n : ℤ) = (n : ℤ) + (n : ℤ) := by ring
      rw [h2, Int.add_emod_self, Int.emod_self]

/-- Witness for C7 with three slides starting at index 1. -/
theorem C7_loop_round_trips_witness :
    (nextTarget 3)^[3] 1 = 1 ∧
    prevTarget 3 (nextTarget 3 1) = 1 ∧
    nextTarget 3 (prevTarget 3 1) = 1 :=
  C7_loop_round_trips 3 1 (by decide) (by decide) (by decide)

/-- C8: with looping disabled, `next()` at the last index and `prev()` at
index 0 return before calling `show` — index unchanged, no transition
path, no notification — while at every interior index `next()` and
`prev()` complete a transition to the adjacent index. -/
theorem C8_no_loop_boundaries (wf fam : Bool) (st : SliderState)
    (anim : String) (hloop : st.loop = false)
    (hanim : st.isAnimating = false)
    (hidx : st.index < st.slides.length) :
    (st.index + 1 = st.slides.length →
      next' wf fam st anim = Except.ok (st, [], none)) ∧
    (st.index = 0 →
      prev' wf fam st anim = Except.ok (st, [], none)) ∧
    (st.index + 1 < st.slides.length →
      ∃ st' ev p, next' wf fam st anim = Except.ok (st', ev, some p) ∧
        st'.index = st.index + 1) ∧
    (0 < st.index →
      ∃ st' ev p, prev' wf fam st anim = Except.ok (st', ev, some p) ∧
        st'.index = st.index - 1) := by
  refine ⟨?_, ?_, ?_, ?_⟩
  · intro h
    unfold next'
    rw [if_pos ⟨by omega, hloop⟩]
  · intro h
    unfold prev'
    rw [if_pos ⟨by omega, hloop⟩]
  · intro h
    unfold next'
    rw [if_neg (by rintro ⟨h1, _⟩; omega)]
    have hT : nextTarget st.slides.length (st.index : ℤ) =
        (st.index : ℤ) + 1 := by
      rw [nextTarget_eq_mod, Int.emod_eq_of_lt (by omega) (by omega)]
    rw [hT]
    obtain ⟨st', ev, p, heq, hix⟩ :=
      show'_completes wf fam st anim ((st.index : ℤ) + 1) hanim hidx
        (by omega) (by omega) (by omega)
    exact ⟨st', ev, p, heq, by omega⟩
  · intro h
    unfold prev'
    rw [if_neg (by rintro ⟨h1, _⟩; omega)]
    have hT : prevTarget st.slides.length (st.index : ℤ) =
        (st.index : ℤ) - 1 := by
      rw [prevTarget_eq_mod, Int.emod_eq_of_lt (by omega) (by omega)]
    rw [hT]
    obtain ⟨st', ev, p, heq, hix⟩ :=
      show'_completes wf fam st anim ((st.index : ℤ) - 1) hanim hidx
        (by omega) (by omega) (by omega)
    exact ⟨st', ev, p, heq, by omega⟩

/-- Witness for C8 on a two-slide slider with looping disabled, sitting at
the last index: `next()` is a no-op and `prev()` moves to index 0. -/
theorem C8_no_loop_boundaries_witness :
    ((1 : ℕ) + 1 = 2 →
      next' false false
          { slides := [{ active := false, hasImg := true },
                       { active := true, hasImg := true }],
            index := 1, isAnimating := false, loop := false } "wave" =
        Except.ok
          ({ slides := [{ active := false, hasImg := true },
                        { active := true, hasImg := true }],
             index := 1, isAnimating := false, loop := false }, [], none)) ∧
    ((1 : ℕ) = 0 →
      prev' false false
          { slides := [{ active := false, hasImg := true },
                       { active := true, hasImg := true }],
            index := 1, isAnimating := false, loop := false } "wave" =
        Except.ok
          ({ slides := [{ active := false, hasImg := true },
                        { active := true, hasImg := true }],
             index := 1, isAnimating := false, loop := false }, [], none)) ∧
    ((1 : ℕ) + 1 < 2 →
      ∃ st' ev p, next' false false
          { slides := [{ active := false, hasImg := true },
                       { active := true, hasImg := true }],
            index := 1, isAnimating := false, loop := false } "wave" =
        Except.ok (st', ev, some p) ∧ st'.index = 1 + 1) ∧
    ((0 : ℕ) < 1 →
      ∃ st' ev p, prev' false false
          { slides := [{ active := false, hasImg := true },
                       { active := true, hasImg := true }],
            index := 1, isAnimating := false, loop := false } "wave" =
        Except.ok (st', ev, some p) ∧ st'.index = 1 - 1) :=
  C8_no_loop_boundaries false false
    { slides := [{ active := false, hasImg := true },
                 { active := true, hasImg := true }],
      index := 1, isAnimating := false, loop := false } "wave" rfl rfl
    (by decide)

/-- Per-frame progress value of the WebGL step callback (line 392):
`t = Math.min(1, (now - start) / dur)`. -/
def progressAt (start dur now : ℚ) : ℚ := min 1 ((now - start) / dur)

/-- The cooperative frame loop (lines 390-398): each frame timestamp
submits its progress to the shader (`uniforms.progress.value = t`); while
`t < 1` the loop reschedules itself, otherwise that frame finalizes and
is the last.  Returns the `(timestamp, submitted progress)` pairs in
order. -/
def runLoop (start dur : ℚ) : List ℚ → List (ℚ × ℚ)
  | [] => []
  | now :: rest =>
    if progressAt start dur now < 1 then
      (now, progressAt start dur now) :: runLoop start dur rest
    else
      [(now, progressAt start dur now)]

theorem progressAt_le_one (start dur now : ℚ) :
    progressAt start dur now ≤ 1 :=
  min_le_left _ _

theorem progressAt_nonneg (start dur now : ℚ) (hdur : 0 < dur)
    (h : start ≤ now) : 0 ≤ progressAt start dur now :=
  le_min (by norm_num) (div_nonneg (by linarith) hdur.le)

theorem progressAt_mono (start dur : ℚ) (hdur : 0 < dur) {x y : ℚ}
    (h : x ≤ y) : progressAt start dur x ≤ progressAt start dur y :=
  min_le_min le_rfl ((div_le_div_iff_of_pos_right hdur).mpr (by linarith))

theorem progressAt_eq_one_iff (start dur now : ℚ) (hdur : 0 < dur) :
    progressAt start dur now = 1 ↔ start + dur ≤ now := by
  unfold progressAt
  rw [min_eq_left_iff, le_div_iff₀ hdur]
  constructor <;> intro h <;> linarith

theorem progressAt_lt_one_iff (start dur now : ℚ) (hdur : 0 < dur) :
    progressAt start dur now < 1 ↔ now < start + dur := by
  unfold progressAt
  rw [min_lt_iff]
  constructor
  · rintro (h | h)
    · exact absurd h (lt_irrefl 1)
    · rw [div_lt_iff₀ hdur] at h
      linarith
  · intro h
    refine Or.inr ?_
    rw [div_lt_iff₀ hdur]
    linarith

/-- Helper: every pair produced by the frame loop is one of the supplied
frame timestamps together with its computed progress. -/
theorem mem_runLoop (start dur : ℚ) (l : List ℚ) (p : ℚ × ℚ)
    (hp : p ∈ runLoop start dur l) :
    p.1 ∈ l ∧ p.2 = progressAt start dur p.1 := by
  induction l with
  | nil => simp [runLoop] at hp
  | cons now rest ih =>
    unfold runLoop at hp
    split at hp
    · rcases List.mem_cons.mp hp with h | h
      · subst h
        exact ⟨List.mem_cons_self _ _, rfl⟩
      · obtain ⟨h1, h2⟩ := ih h
        exact ⟨List.mem_cons_of_mem _ h1, h2⟩
    · have h := List.mem_singleton.mp hp
      subst h
      exact ⟨List.mem_cons_self _ _, rfl⟩

/-- Helper: progress values submitted by the frame loop are
non-decreasing along the loop when the timestamps are. -/
theorem runLoop_pairwise (start dur : ℚ) (hdur : 0 < dur) :
    ∀ l : List ℚ, l.Sorted (· ≤ ·) →
      (runLoop start dur l).Pairwise (fun a b => a.2 ≤ b.2) := by
  intro l
  induction l with
  | nil =>
    intro _
    simp [runLoop]
  | cons now rest ih =>
    intro hs
    rw [List.sorted_cons] at hs
    obtain ⟨hhead, htail⟩ := hs
    unfold runLoop
    split
    · refine List.Pairwise.cons ?_ (ih htail)
      intro b hb
      obtain ⟨hb1, hb2⟩ := mem_runLoop start dur rest b hb
      rw [hb2]
      exact progressAt_mono start dur hdur (hhead _ hb1)
    · simp

/-- Helper: the head of a cons contributes nothing to `getLast?` when the
tail is nonempty. -/
theorem getLast?_cons_ne_nil {α : Type} {a : α} {l : List α}
    (h : l ≠ []) : (a :: l).getLast? = l.getLast? := by
  cases l with
  | nil => exact absurd rfl h
  | cons b m => rfl

/-- Helper: once some frame timestamp is at least `start + dur`, the loop
terminates with a final frame whose progress is exactly 1 and whose
timestamp is at or after `start + dur`. -/
theorem runLoop_completes (start dur : ℚ) (hdur : 0 < dur) :
    ∀ l : List ℚ, (∃ x ∈ l, start + dur ≤ x) →
      ∃ q, (runLoop start dur l).getLast? = some q ∧ q.2 = 1 ∧
        start + dur ≤ q.1 := by
  intro l
  induction l with
  | nil =>
    rintro ⟨x, hx, _⟩
    simp at hx
  | cons now rest ih =>
    rintro ⟨x, hx, hxd⟩
    unfold runLoop
    split
    · next hlt =>
      have hnow : now < start + dur :=
        (progressAt_lt_one_iff start dur now hdur).mp hlt
      rcases List.mem_cons.mp hx with h | h
      · subst h
        linarith
      · obtain ⟨q, hq1, hq2, hq3⟩ := ih ⟨x, h, hxd⟩
        refine ⟨q, ?_, hq2, hq3⟩
        have hne : runLoop start dur rest ≠ [] := by
          intro hnil
          rw [hnil] at hq1
          simp at hq1
        rw [getLast?_cons_ne_nil hne]
        exact hq1
    · next hge =>
      push_neg at hge
      have h1 : progressAt start dur now = 1 :=
        le_antisymm (progressAt_le_one _ _ _) hge
      exact ⟨(now, progressAt start dur now), rfl, h1,
        (progressAt_eq_one_iff start dur now hdur).mp h1⟩

/-- C4: within one GPU transition session with positive duration, frame
timestamps at or after the start and non-decreasing in wall-clock order,
every progress value fed to the shader lies in `[0, 1]`, the submitted
values are monotonically non-decreasing along the loop, and as soon as
some frame occurs at or after `start + dur` the loop has a final frame
whose progress is exactly 1 and whose timestamp is at or after
`start + dur` — no matter how many frames run. -/
theorem C4_progress_clamped_monotone (start dur : ℚ) (frames : List ℚ)
    (hdur : 0 < dur) (hstart : ∀ x ∈ frames, start ≤ x)
    (hsort : frames.Sorted (· ≤ ·)) :
    (∀ p ∈ runLoop start dur frames, 0 ≤ p.2 ∧ p.2 ≤ 1) ∧
    (runLoop start dur frames).Pairwise (fun a b => a.2 ≤ b.2) ∧
    ((∃ x ∈ frames, start + dur ≤ x) →
      ∃ q, (runLoop start dur frames).getLast? = some q ∧ q.2 = 1 ∧
        start + dur ≤ q.1) := by
  refine ⟨?_, runLoop_pairwise start dur hdur frames hsort,
    runLoop_completes start dur hdur frames⟩
  intro p hp
  obtain ⟨h1, h2⟩ := mem_runLoop start dur frames p hp
  rw [h2]
  exact ⟨progressAt_nonneg start dur p.1 hdur (hstart _ h1),
    progressAt_le_one start dur p.1⟩

/-- Witness for C4: duration 2 starting at time 0 with frames at 0, 1
and 3. -/
theorem C4_progress_clamped_monotone_witness :
    (∀ p ∈ runLoop 0 2 [0, 1, 3], 0 ≤ p.2 ∧ p.2 ≤ 1) ∧
    (runLoop 0 2 [0, 1, 3]).Pairwise (fun a b => a.2 ≤ b.2) ∧
    ((∃ x ∈ [(0 : ℚ), 1, 3], (0 : ℚ) + 2 ≤ x) →
      ∃ q, (runLoop 0 2 [0, 1, 3]).getLast? = some q ∧ q.2 = 1 ∧
        (0 : ℚ) + 2 ≤ q.1) :=
  C4_progress_clamped_monotone 0 2 [0, 1, 3] (by norm_num)
    (by intro x hx; fin_cases hx <;> norm_num)
    (by simp [List.sorted_cons])

/-- Environment of one `_webglTransition` session: which of its fallible
steps succeed.  `threeAvailable` — the Three.js lookup (lines 250-283);
`componentsComplete` — the required-component check (lines 288-294);
`tex0Ok`/`tex1Ok` — the two `_loadTexture` promises (lines 346-349);
`rafStartOk` — the initial `requestAnimationFrame` call (lines 432-441);
`stepSucceeds` — whether every frame-loop step body runs without throwing
(lines 390-430). -/
structure GpuEnv where
  threeAvailable : Bool
  componentsComplete : Bool
  tex0Ok : Bool
  tex1Ok : Bool
  rafStartOk : Bool
  stepSucceeds : Bool
  deriving DecidableEq, Repr

/-- Resource ledger of one `_webglTransition` session: whether the overlay
canvas is currently attached to the document, and which GPU objects have
been created and disposed. -/
structure GpuRes where
  canvasAttached : Bool
  rendererCreated : Bool
  rendererDisposed : Bool
  geometryCreated : Bool
  geometryDisposed : Bool
  materialCreated : Bool
  materialDisposed : Bool
  texturesCreated : Bool
  texturesDisposed : Bool
  deriving DecidableEq, Repr

/-- Ledger before the session allocates anything. -/
def noRes : GpuRes :=
  { canvasAttached := false, rendererCreated := false,
    rendererDisposed := false, geometryCreated := false,
    geometryDisposed := false, materialCreated := false,
    materialDisposed := false, texturesCreated := false,
    texturesDisposed := false }

/-- How the session's promise settles. -/
inductive GpuOutcome where
  | resolved
  | rejected
  deriving DecidableEq, Repr

/-- CometSlider._webglTransition as a resource trace.  Order follows the
source: the Three.js lookup and component check reject before anything is
allocated; then the canvas is created and appended (lines 310-322), the
renderer (line 324) and geometry (lines 337-342) are created; a texture
load failure throws into the outer catch (lines 444-447) which only logs
and rejects; after the textures the material is created (line 366); a
failure to start the frame loop removes the canvas and rejects (lines
434-441); a frame-step error cancels the frame, removes the canvas and
rejects (lines 421-429); completion disposes renderer, geometry,
material and textures, then removes the canvas (lines 405-414). -/
def webglTransition (env : GpuEnv) : GpuOutcome × GpuRes :=
  if env.threeAvailable = false then
    (GpuOutcome.rejected, noRes)
  else if env.componentsComplete = false then
    (GpuOutcome.rejected, noRes)
  else if env.tex0Ok = false ∨ env.tex1Ok = false then
    (GpuOutcome.rejected,
      { noRes with canvasAttached := true, rendererCreated := true,
                   geometryCreated := true })
  else if env.rafStartOk = false then
    (GpuOutcome.rejected,
      { noRes with canvasAttached := false, rendererCreated := true,
                   geometryCreated := true, texturesCreated := true,
                   materialCreated := true })
  else if env.stepSucceeds = false then
    (GpuOutcome.rejected,
      { noRes with canvasAttached := false, rendererCreated := true,
                   geometryCreated := true, texturesCreated := true,
                   materialCreated := true })
  else
    (GpuOutcome.resolved,
      { canvasAttached := false, rendererCreated := true,
        rendererDisposed := true, geometryCreated := true,
        geometryDisposed := true, materialCreated := true,
        materialDisposed := true, texturesCreated := true,
        texturesDisposed := true })

/-- C2 counterexample: a session that fails at texture decode (Three.js
present, components complete, first texture load rejects) rejects with
the overlay canvas still attached to the document and the renderer and
geometry created but never disposed — contradicting the claim that every
failing session removes the canvas and releases every resource created
so far before rejecting. -/
theorem C2_texture_failure_leaks :
    (webglTransition
        { threeAvailable := true, componentsComplete := true,
          tex0Ok := false, tex1Ok := true, rafStartOk := true,
          stepSucceeds := true }).1 = GpuOutcome.rejected ∧
    (webglTransition
        { threeAvailable := true, componentsComplete := true,
          tex0Ok := false, tex1Ok := true, rafStartOk := true,
          stepSucceeds := true }).2.canvasAttached = true ∧
    (webglTransition
        { threeAvailable := true, componentsComplete := true,
          tex0Ok := false, tex1Ok := true, rafStartOk := true,
          stepSucceeds := true }).2.rendererCreated = true ∧
    (webglTransition
        { threeAvailable := true, componentsComplete := true,
          tex0Ok := false, tex1Ok := true, rafStartOk := true,
          stepSucceeds := true }).2.rendererDisposed = false := by
  decide

/-- C2 (amended): full characterization of failing sessions.  A session
rejects exactly when some step fails.  When Three.js is unavailable or a
required component is missing, the session rejects before anything is
allocated: the resource ledger still equals `noRes`.  A texture decode
failure rejects with the overlay canvas still attached and the renderer
and geometry created but nothing disposed (material and textures were
never created).  A failure to start the frame loop, or an error during a
frame step, rejects with the canvas removed and the renderer, geometry,
material and textures all created and none of them disposed.  In
particular no rejecting session ever disposes a GPU resource. -/
theorem C2_reject_cleanup_characterized (env : GpuEnv) :
    ((webglTransition env).1 = GpuOutcome.rejected ↔
      (env.threeAvailable = false ∨ env.componentsComplete = false ∨
        env.tex0Ok = false ∨ env.tex1Ok = false ∨
        env.rafStartOk = false ∨ env.stepSucceeds = false)) ∧
    ((env.threeAvailable = false ∨ env.componentsComplete = false) →
      (webglTransition env).2 = noRes) ∧
    ((env.threeAvailable = true ∧ env.componentsComplete = true ∧
        (env.tex0Ok = false ∨ env.tex1Ok = false)) →
      (webglTransition env).2 =
        { noRes with canvasAttached := true, rendererCreated := true,
                     geometryCreated := true }) ∧
    ((env.threeAvailable = true ∧ env.componentsComplete = true ∧
        env.tex0Ok = true ∧ env.tex1Ok = true ∧
        (env.rafStartOk = false ∨ env.stepSucceeds = false)) →
      (webglTransition env).2 =
        { noRes with rendererCreated := true, geometryCreated := true,
                     texturesCreated := true, materialCreated := true }) := by
  rcases env with ⟨t, c, x, y, r, s⟩
  cases t <;> cases c <;> cases x <;> cases y <;> cases r <;> cases s <;>
    decide

/-- Witness for C2 (amended) at the engine-unavailable environment: the
session rejects and its resource ledger is still `noRes`. -/
theorem C2_reject_cleanup_characterized_witness :
    ((webglTransition
        { threeAvailable := false, componentsComplete := true,
          tex0Ok := true, tex1Ok := true, rafStartOk := true,
          stepSucceeds := true }).1 = GpuOutcome.rejected ↔
      ((false : Bool) = false ∨ (true : Bool) = false ∨
        (true : Bool) = false ∨ (true : Bool) = false ∨
        (true : Bool) = false ∨ (true : Bool) = false)) ∧
    (((false : Bool) = false ∨ (true : Bool) = false) →
      (webglTransition
        { threeAvailable := false, componentsComplete := true,
          tex0Ok := true, tex1Ok := true, rafStartOk := true,
          stepSucceeds := true }).2 = noRes) ∧
    (((false : Bool) = true ∧ (true : Bool) = true ∧
        ((true : Bool) = false ∨ (true : Bool) = false)) →
      (webglTransition
        { threeAvailable := false, componentsComplete := true,
          tex0Ok := true, tex1Ok := true, rafStartOk := true,
          stepSucceeds := true }).2 =
        { noRes with canvasAttached := true, rendererCreated := true,
                     geometryCreated := true }) ∧
    (((false : Bool) = true ∧ (true : Bool) = true ∧
        (true : Bool) = true ∧ (true : Bool) = true ∧
        ((true : Bool) = false ∨ (true : Bool) = false)) →
      (webglTransition
        { threeAvailable := false, componentsComplete := true,
          tex0Ok := true, tex1Ok := true, rafStartOk := true,
          stepSucceeds := true }).2 =
        { noRes with rendererCreated := true, geometryCreated := true,
                     texturesCreated := true, materialCreated := true }) :=
  C2_reject_cleanup_characterized
    { threeAvailable := false, componentsComplete := true,
      tex0Ok := true, tex1Ok := true, rafStartOk := true,
      stepSucceeds := true }

@[simp]
theorem setActive_length (sl : List Slide) (j : ℕ) (b : Bool) :
    (setActive sl j b).length = sl.length := by
  induction sl generalizing j with
  | nil => rfl
  | cons s rest ih =>
    cases j with
    | zero => rfl
    | succ jj => simp [setActive, ih]

theorem isActive_setActive (sl : List Slide) (j : ℕ) (b : Bool) (i : ℕ) :
    isActive (setActive sl j b) i =
      if i = j ∧ j < sl.length then b else isActive sl i := by
  induction sl generalizing i j with
  | nil => simp [setActive, isActive]
  | cons s rest ih =>
    cases j with
    | zero =>
      cases i with
      | zero => simp [setActive, isActive]
      | succ ii => simp [setActive, isActive]
    | succ jj =>
      cases i with
      | zero => simp [setActive, isActive]
      | succ ii =>
        have hc : (ii + 1 = jj + 1 ∧ jj + 1 < rest.length + 1) ↔
            (ii = jj ∧ jj < rest.length) := by omega
        simp [setActive, isActive, ih, hc]

@[simp]
theorem markBothActive_length (sl : List Slide) (f t : ℕ) :
    (markBothActive sl f t).length = sl.length := by
  simp [markBothActive]

@[simp]
theorem deactivateActivate_length (sl : List Slide) (f t : ℕ) :
    (deactivateActivate sl f t).length = sl.length := by
  simp [deactivateActivate]

theorem isActive_markBothActive (sl : List Slide) (f t i : ℕ)
    (hf : f < sl.length) (ht : t < sl.length) :
    (isActive (markBothActive sl f t) i = true ↔
      (i = f ∨ i = t ∨ isActive sl i = true)) := by
  unfold markBothActive
  rw [isActive_setActive, isActive_setActive, setActive_length]
  by_cases h1 : i = f <;> by_cases h2 : i = t <;> simp [h1, h2, hf, ht]

theorem isActive_deactivateActivate (sl : List Slide) (f t i : ℕ)
    (hf : f < sl.length) (ht : t < sl.length) :
    (isActive (deactivateActivate sl f t) i = true ↔
      (i = t ∨ (i ≠ f ∧ isActive sl i = true))) := by
  unfold deactivateActivate
  rw [isActive_setActive, isActive_setActive, setActive_length]
  by_cases h1 : i = t <;> by_cases h2 : i = f <;> simp [h1, h2, hf, ht]

/-- Whether the slide at position `i` owns an eligible image. -/
def hasDirectImg (sl : List Slide) (i : ℕ) : Bool :=
  ((sl.get? i).map Slide.hasImg).getD false

/-- Phase of one navigation as observable between the tasks and microtasks
of the event loop: `idle` (no transition), `webglSetup` (animating flag
set, WebGL session created, textures still loading — active markers
untouched), `webglRunning` (both slides marked active, frame loop
scheduled), `fading` (CSS fade in progress — also the fallback after any
WebGL rejection — both slides marked active). -/
inductive Phase where
  | idle
  | webglSetup (toIdx : ℕ)
  | webglRunning (toIdx : ℕ)
  | fading (toIdx : ℕ)
  deriving DecidableEq, Repr

/-- The target index of the transition in flight, if any. -/
def Phase.target : Phase → Option ℕ
  | Phase.idle => none
  | Phase.webglSetup t => some t
  | Phase.webglRunning t => some t
  | Phase.fading t => some t

/-- Whether the phase has already marked both slides active. -/
def Phase.bothMarked : Phase → Bool
  | Phase.webglRunning _ => true
  | Phase.fading _ => true
  | _ => false

/-- Observable machine state of a slider instance between event-loop
tasks. -/
structure MState where
  slides : List Slide
  index : ℕ
  animating : Bool
  phase : Phase
  deriving DecidableEq, Repr

/-- Slides as set up by the constructor (lines 115-118): slide 0 gets
`data-active` true, every other slide false; `k` is the position of the
first slide of the remaining list. -/
def initSlides : List Bool → ℕ → List Slide
  | [], _ => []
  | h :: rest, k => { active := k == 0, hasImg := h } :: initSlides rest (k + 1)

/-- State right after the constructor: index 0, not animating, idle. -/
def initState (imgs : List Bool) : MState :=
  { slides := initSlides imgs 0, index := 0, animating := false,
    phase := Phase.idle }

@[simp]
theorem initSlides_length (imgs : List Bool) (k : ℕ) :
    (initSlides imgs k).length = imgs.length := by
  induction imgs generalizing k with
  | nil => rfl
  | cons h rest ih => simp [initSlides, ih]

theorem isActive_initSlides (imgs : List Bool) (k i : ℕ) :
    (isActive (initSlides imgs k) i = true ↔
      (i < imgs.length ∧ k + i = 0)) := by
  induction imgs generalizing k i with
  | nil => simp [initSlides, isActive]
  | cons h rest ih =>
    cases i with
    | zero =>
      simp [initSlides, isActive]
    | succ ii =>
      simp only [initSlides, isActive, ih, List.length_cons]
      omega

/-- One observable step of a slider instance.  Each constructor is a task
(or a task merged with the microtask that runs immediately after it) of
the source: the synchronous part of `show`, texture-load settlement, the
final or a failing animation frame, the fade timeout. -/
inductive Step : MState → MState → Prop where
  | instantSwap (st : MState) (t : ℕ) :
      st.phase = Phase.idle → st.animating = false →
      t < st.slides.length → t ≠ st.index →
      (hasDirectImg st.slides st.index = false ∨
        hasDirectImg st.slides t = false) →
      Step st { st with slides := deactivateActivate st.slides st.index t,
                        index := t }
  | startFade (st : MState) (t : ℕ) :
      st.phase = Phase.idle → st.animating = false →
      t < st.slides.length → t ≠ st.index →
      hasDirectImg st.slides st.index = true →
      hasDirectImg st.slides t = true →
      Step st { st with animating := true,
                        slides := markBothActive st.slides st.index t,
                        phase := Phase.fading t }
  | startWebgl (st : MState) (t : ℕ) :
      st.phase = Phase.idle → st.animating = false →
      t < st.slides.length → t ≠ st.index →
      hasDirectImg st.slides st.index = true →
      hasDirectImg st.slides t = true →
      Step st { st with animating := true, phase := Phase.webglSetup t }
  | webglInitFail (st : MState) (t : ℕ) :
      st.phase = Phase.idle → st.animating = false →
      t < st.slides.length → t ≠ st.index →
      hasDirectImg st.slides st.index = true →
      hasDirectImg st.slides t = true →
      Step st { st with animating := true,
                        slides := markBothActive st.slides st.index t,
                        phase := Phase.fading t }
  | texturesLoaded (st : MState) (t : ℕ) :
      st.phase = Phase.webglSetup t →
      Step st { st with slides := markBothActive st.slides st.index t,
                        phase := Phase.webglRunning t }
  | textureFail (st : MState) (t : ℕ) :
      st.phase = Phase.webglSetup t →
      Step st { st with slides := markBothActive st.slides st.index t,
                        phase := Phase.fading t }
  | webglFinish (st : MState) (t : ℕ) :
      st.phase = Phase.webglRunning t →
      Step st { st with slides := deactivateActivate
                          (deactivateActivate st.slides st.index t) st.index t,
                        index := t, animating := false, phase := Phase.idle }
  | webglStepFail (st : MState) (t : ℕ) :
      st.phase = Phase.webglRunning t →
      Step st { st with slides := markBothActive st.slides st.index t,
                        phase := Phase.fading t }
  | fadeFinish (st : MState) (t : ℕ) :
      st.phase = Phase.fading t →
      Step st { st with slides := deactivateActivate
                          (deactivateActivate st.slides st.index t) st.index t,
                        index := t, animating := false, phase := Phase.idle }

/-- The machine invariant: the index is in range; the animating flag
tracks the phase; any in-flight target is a distinct in-range index; and
a slide is marked active exactly when it is the current slide or the
already-marked target of the transition in flight. -/
structure Inv (st : MState) : Prop where
  idxLt : st.index < st.slides.length
  animPhase : st.animating = true ↔ st.phase ≠ Phase.idle
  targetOk : ∀ t, st.phase.target = some t →
    t < st.slides.length ∧ t ≠ st.index
  actives : ∀ i, isActive st.slides i = true ↔
    (i = st.index ∨
      (st.phase.bothMarked = true ∧ st.phase.target = some i))

theorem inv_init (imgs : List Bool) (hne : imgs ≠ []) :
    Inv (initState imgs) := by
  have hlen : 0 < imgs.length := List.length_pos.mpr hne
  refine ⟨?_, ?_, ?_, ?_⟩
  · simpa [initState] using hlen
  · simp [initState]
  · intro t ht
    simp [initState, Phase.target] at ht
  · intro i
    simp [initState, Phase.target, Phase.bothMarked, isActive_initSlides]
    omega

theorem inv_step {a b : MState} (h : Step a b) (hInv : Inv a) : Inv b := by
  obtain ⟨idxLt, animPhase, targetOk, actives⟩ := hInv
  cases h with
  | instantSwap t hph hanim hlt hne himg =>
    have hOld : ∀ j, isActive a.slides j = true ↔ j = a.index := by
      intro j
      rw [actives j, hph]
      simp [Phase.bothMarked]
    refine ⟨?_, ?_, ?_, ?_⟩
    · dsimp only
      simpa using hlt
    · dsimp only
      exact animPhase
    · intro u hu
      dsimp only at hu
      rw [hph] at hu
      simp [Phase.target] at hu
    · intro i
      dsimp only
      rw [isActive_deactivateActivate a.slides a.index t i idxLt hlt,
        hOld i, hph]
      simp [Phase.bothMarked]
      try omega
  | startFade t hph hanim hlt hne hif hit =>
    have hOld : ∀ j, isActive a.slides j = true ↔ j = a.index := by
      intro j
      rw [actives j, hph]
      simp [Phase.bothMarked]
    refine ⟨?_, ?_, ?_, ?_⟩
    · dsimp only
      simpa using idxLt
    · dsimp only
      simp
    · intro u hu
      dsimp only at hu ⊢
      simp only [Phase.target, Option.some.injEq] at hu
      subst hu
      exact ⟨by simpa using hlt, by simpa using hne⟩
    · intro i
      dsimp only
      rw [isActive_markBothActive a.slides a.index t i idxLt hlt, hOld i]
      simp [Phase.bothMarked, Phase.target]
      try omega
  | startWebgl t hph hanim hlt hne hif hit =>
    have hOld : ∀ j, isActive a.slides j = true ↔ j = a.index := by
      intro j
      rw [actives j, hph]
      simp [Phase.bothMarked]
    refine ⟨?_, ?_, ?_, ?_⟩
    · dsimp only
      exact idxLt
    · dsimp only
      simp
    · intro u hu
      dsimp only at hu ⊢
      simp only [Phase.target, Option.some.injEq] at hu
      subst hu
      exact ⟨by simpa using hlt, by simpa using hne⟩
    · intro i
      dsimp only
      rw [hOld i]
      simp [Phase.bothMarked, Phase.target]
  | webglInitFail t hph hanim hlt hne hif hit =>
    have hOld : ∀ j, isActive a.slides j = true ↔ j = a.index := by
      intro j
      rw [actives j, hph]
      simp [Phase.bothMarked]
    refine ⟨?_, ?_, ?_, ?_⟩
    · dsimp only
      simpa using idxLt
    · dsimp only
      simp
    · intro u hu
      dsimp only at hu ⊢
      simp only [Phase.target, Option.some.injEq] at hu
      subst hu
      exact ⟨by simpa using hlt, by simpa using hne⟩
    · intro i
      dsimp only
      rw [isActive_markBothActive a.slides a.index t i idxLt hlt, hOld i]
      simp [Phase.bothMarked, Phase.target]
      try omega
  | texturesLoaded t hph =>
    obtain ⟨hlt, hne⟩ := targetOk t (by simp [hph, Phase.target])
    have hA : a.animating = true := animPhase.mpr (by rw [hph]; simp)
    have hOld : ∀ j, isActive a.slides j = true ↔ j = a.index := by
      intro j
      rw [actives j, hph]
      simp [Phase.bothMarked]
    refine ⟨?_, ?_, ?_, ?_⟩
    · dsimp only
      simpa using idxLt
    · dsimp only
      simp [hA]
    · intro u hu
      dsimp only at hu ⊢
      simp only [Phase.target, Option.some.injEq] at hu
      subst hu
      exact ⟨by simpa using hlt, by simpa using hne⟩
    · intro i
      dsimp only
      rw [isActive_markBothActive a.slides a.index t i idxLt hlt, hOld i]
      simp [Phase.bothMarked, Phase.target]
      try omega
  | textureFail t hph =>
    obtain ⟨hlt, hne⟩ := targetOk t (by simp [hph, Phase.target])
    have hA : a.animating = true := animPhase.mpr (by rw [hph]; simp)
    have hOld : ∀ j, isActive a.slides j = true ↔ j = a.index := by
      intro j
      rw [actives j, hph]
      simp [Phase.bothMarked]
    refine ⟨?_, ?_, ?_, ?_⟩
    · dsimp only
      simpa using idxLt
    · dsimp only
      simp [hA]
    · intro u hu
      dsimp only at hu ⊢
      simp only [Phase.target, Option.some.injEq] at hu
      subst hu
      exact ⟨by simpa using hlt, by simpa using hne⟩
    · intro i
      dsimp only
      rw [isActive_markBothActive a.slides a.index t i idxLt hlt, hOld i]
      simp [Phase.bothMarked, Phase.target]
      try omega
  | webglFinish t hph =>
    obtain ⟨hlt, hne⟩ := targetOk t (by simp [hph, Phase.target])
    have hOld : ∀ j, isActive a.slides j = true ↔
        (j = a.index ∨ t = j) := by
      intro j
      rw [actives j, hph]
      simp [Phase.bothMarked, Phase.target]
    refine ⟨?_, ?_, ?_, ?_⟩
    · dsimp only
      simpa using hlt
    · dsimp only
      simp
    · intro u hu
      dsimp only at hu
      simp [Phase.target] at hu
    · intro i
      dsimp only
      rw [isActive_deactivateActivate _ a.index t i (by simpa using idxLt)
          (by simpa using hlt),
        isActive_deactivateActivate a.slides a.index t i idxLt hlt,
        hOld i]
      simp [Phase.bothMarked]
      try omega
  | webglStepFail t hph =>
    obtain ⟨hlt, hne⟩ := targetOk t (by simp [hph, Phase.target])
    have hA : a.animating = true := animPhase.mpr (by rw [hph]; simp)
    have hOld : ∀ j, isActive a.slides j = true ↔
        (j = a.index ∨ t = j) := by
      intro j
      rw [actives j, hph]
      simp [Phase.bothMarked, Phase.target]
    refine ⟨?_, ?_, ?_, ?_⟩
    · dsimp only
      simpa using idxLt
    · dsimp only
      simp [hA]
    · intro u hu
      dsimp only at hu ⊢
      simp only [Phase.target, Option.some.injEq] at hu
      subst hu
      exact ⟨by simpa using hlt, by simpa using hne⟩
    · intro i
      dsimp only
      rw [isActive_markBothActive a.slides a.index t i idxLt hlt, hOld i]
      simp [Phase.bothMarked, Phase.target]
      try omega
  | fadeFinish t hph =>
    obtain ⟨hlt, hne⟩ := targetOk t (by simp [hph, Phase.target])
    have hOld : ∀ j, isActive a.slides j = true ↔
        (j = a.index ∨ t = j) := by
      intro j
      rw [actives j, hph]
      simp [Phase.bothMarked, Phase.target]
    refine ⟨?_, ?_, ?_, ?_⟩
    · dsimp only
      simpa using hlt
    · dsimp only
      simp
    · intro u hu
      dsimp only at hu
      simp [Phase.target] at hu
    · intro i
      dsimp only
      rw [isActive_deactivateActivate _ a.index t i (by simpa using idxLt)
          (by simpa using hlt),
        isActive_deactivateActivate a.slides a.index t i idxLt hlt,
        hOld i]
      simp [Phase.bothMarked]
      try omega

/-- The states a slider instance can reach from its freshly constructed
state through any interleaving of transitions, failures and fallbacks. -/
def Reachable (imgs : List Bool) (st : MState) : Prop :=
  Relation.ReflTransGen Step (initState imgs) st

theorem inv_reachable (imgs : List Bool) (hne : imgs ≠ []) :
    ∀ st, Reachable imgs st → Inv st := by
  intro st h
  induction h with
  | refl => exact inv_init imgs hne
  | tail h1 h2 ih => exact inv_step h2 ih

/-- C5: in every reachable state of a slider built over a nonempty slide
list, at steady state (animating flag clear) exactly the slide at the
current index carries the active marker; while a transition is in flight
the only other possible shape is that exactly the `from` slide (the
current index) and the `to` slide are marked — both are transiently
active once the transition has marked them, and no third slide is ever
marked. -/
theorem C5_active_marker_invariant (imgs : List Bool) (hne : imgs ≠ [])
    (st : MState) (hr : Reachable imgs st) :
    (st.animating = false →
      ∀ i, (isActive st.slides i = true ↔ i = st.index)) ∧
    (st.animating = true → ∃ t, t ≠ st.index ∧
      ((∀ i, (isActive st.slides i = true ↔ i = st.index)) ∨
       (∀ i, (isActive st.slides i = true ↔ (i = st.index ∨ i = t))))) := by
  obtain ⟨idxLt, animPhase, targetOk, actives⟩ := inv_reachable imgs hne st hr
  constructor
  · intro ha i
    have hidle : st.phase = Phase.idle := by
      by_contra hcon
      have := animPhase.mpr hcon
      rw [ha] at this
      cases this
    rw [actives i, hidle]
    simp [Phase.bothMarked]
  · intro ha
    have hnid : st.phase ≠ Phase.idle := animPhase.mp ha
    cases hph : st.phase with
    | idle => exact absurd hph hnid
    | webglSetup t =>
      refine ⟨t, (targetOk t (by simp [hph, Phase.target])).2, Or.inl ?_⟩
      intro i
      rw [actives i, hph]
      simp [Phase.bothMarked]
    | webglRunning t =>
      refine ⟨t, (targetOk t (by simp [hph, Phase.target])).2, Or.inr ?_⟩
      intro i
      rw [actives i, hph]
      simp [Phase.bothMarked, Phase.target]
      constructor <;> rintro (h | h) <;> omega
    | fading t =>
      refine ⟨t, (targetOk t (by simp [hph, Phase.target])).2, Or.inr ?_⟩
      intro i
      rw [actives i, hph]
      simp [Phase.bothMarked, Phase.target]
      constructor <;> rintro (h | h) <;> omega

/-- Witness for C5 at the freshly constructed two-slide slider. -/
theorem C5_active_marker_invariant_witness :
    ((initState [true, true]).animating = false →
      ∀ i, (isActive (initState [true, true]).slides i = true ↔
        i = (initState [true, true]).index)) ∧
    ((initState [true, true]).animating = true →
      ∃ t, t ≠ (initState [true, true]).index ∧
        ((∀ i, (isActive (initState [true, true]).slides i = true ↔
            i = (initState [true, true]).index)) ∨
         (∀ i, (isActive (initState [true, true]).slides i = true ↔
            (i = (initState [true, true]).index ∨ i = t))))) :=
  C5_active_marker_invariant [true, true] (by decide) (initState [true, true])
    Relation.ReflTransGen.refl

end CometSlider
